import Mathlib

/-!
Verification of the value-conversion core of the mac_prefs repository.

The repository contains two near-duplicate implementations of the
CoreFoundation conversion layer:

* the exported variant in `mac_prefs/foundation.go`
  (`ConvertToCFType`, `ConvertFromCFType`, `ConvertMapToCFDictionary`,
  `MapToCFDictionary`, `Release`, `TimeToCFDate`, `CFDateToTime`), and
* the unexported variant in the unnamed file (part_000)
  (`convertToCFType`, `convertFromCFType`, `convertSliceToCFArray`,
  `convertMapToCFDictionary`, `mapToCFDictionary`, lowercase helpers).

Both are embedded below, keeping the source names (the Lean names differ
exactly by the case of the first letter, as in Go).  Machine float
values are carried as rationals; every float operation the converters
perform on them is rounding-free (widening a float32 to float64, the
`floatValue != 0` test, storing and re-reading a double in a CFNumber),
except in the date pipeline, where the `float64(t.Unix())` conversion
and the epoch subtraction/addition round an integer second count to a
53-bit significand: that rounding is modelled exactly by `roundF64Int`.
Native creation calls
(`CFStringCreateWithCString`, `CFNumberCreate`, `CFArrayCreate`,
`CFDictionaryCreate`, `CFDateCreate`) are modelled as succeeding; the
length guard of `BytesToCFData` is kept because it is explicit in the
source.  A Go runtime abort (indexing element 0 of an empty slice,
`reflect.Value.Int` on an unsigned value, or a NULL dereference inside a
CF retain callback) is modelled by a distinct result `crash`.
-/

namespace MacPrefs

/-- Go integer kinds accepted by the numeric case of the converters
(`int, int8, int16, int32, int64, uint, uint8, uint16, uint32, uint64`). -/
inductive IntKind where
  | i | i8 | i16 | i32 | i64 | u | u8 | u16 | u32 | u64
deriving DecidableEq, Repr

/-- Go floating-point kinds (`float32`, `float64`). -/
inductive FloatKind where
  | f32 | f64
deriving DecidableEq, Repr

/-- A Go `time.Time`: whole seconds since the Unix epoch (the value of
`t.Unix()`, which drops the nanosecond part) together with the dropped
nanoseconds.  The location only affects formatting, not the instant, so it
is not modelled. -/
structure GoTime where
  sec : Int
  nsec : Nat
deriving DecidableEq, Repr

/-- A dynamically-typed Go value (`interface{}`) of one of the shapes the
converters dispatch on.  `nilv` is the nil interface value, `other` stands
for any value of a type with no conversion rule (carrying the string that
`fmt.Errorf("unsupported type: %T", value)` would print). -/
inductive GoValue where
  | nilv
  | str (s : String)
  | bytes (b : List Nat)
  | boolean (b : Bool)
  | time (t : GoTime)
  | intv (k : IntKind) (n : Int)
  | floatv (k : FloatKind) (x : ℚ)
  | array (xs : List GoValue)
  | dict (entries : List (String × GoValue))
  | other (typeName : String)

/-- A CoreFoundation object, by runtime type.  A `CFNumber` remembers its
storage subtype: `cfNumberInt` is a number created with
`kCFNumberLongLongType`, `cfNumberFloat` one created with
`kCFNumberDoubleType` (the only two subtypes the encoders ever create). -/
inductive CFObj where
  | cfString (s : String)
  | cfData (b : List Nat)
  | cfBoolean (b : Bool)
  | cfDate (abs : ℚ)
  | cfNumberInt (n : Int)
  | cfNumberFloat (x : ℚ)
  | cfArray (items : List CFObj)
  | cfDict (entries : List (CFObj × CFObj))

/-- Conversion-layer errors, one constructor per `errors.New`/`fmt.Errorf`
site reachable in the embedded functions.  `arrayItemError`,
`dictValueError`, `mapConvError` and `setConvError` model the wrapping
`fmt.Errorf("...: %v", err)` calls. -/
inductive ConvErr where
  | unsupportedType (typeName : String)
  | dataTooLarge
  | unsupportedCFNumber
  | unsupportedCFType
  | invalidUserType
  | invalidHostType
  | arrayItemError (i : Nat) (e : ConvErr)
  | dictValueError (key : String) (e : ConvErr)
  | mapConvError (e : ConvErr)
  | setConvError (e : ConvErr)
deriving DecidableEq, Repr

/-- Outcome of a Go computation that can return a value, return an error,
or abort the process with a runtime panic (modelled as `crash`). -/
inductive Res (α : Type) where
  | ok (a : α)
  | err (e : ConvErr)
  | crash

/-- Result of the Go conversion `int64(num)` applied to a value of the
given static integer kind: value-preserving for every signed kind and for
the unsigned kinds of at most 32 bits, two-complement wrap-around for
`uint` and `uint64`. -/
def goIntToInt64 : IntKind → Int → Int
  | .i, n | .i8, n | .i16, n | .i32, n | .i64, n => n
  | .u8, n | .u16, n | .u32, n => n
  | .u, n | .u64, n =>
      let m := n % 18446744073709551616
      if m < 9223372036854775808 then m else m - 18446744073709551616

/-- Whether `n` is a representable value of the Go integer type `k`. -/
def inRange : IntKind → Int → Bool
  | .i, n | .i64, n => decide (-9223372036854775808 ≤ n ∧ n ≤ 9223372036854775807)
  | .i8, n => decide (-128 ≤ n ∧ n ≤ 127)
  | .i16, n => decide (-32768 ≤ n ∧ n ≤ 32767)
  | .i32, n => decide (-2147483648 ≤ n ∧ n ≤ 2147483647)
  | .u8, n => decide (0 ≤ n ∧ n ≤ 255)
  | .u16, n => decide (0 ≤ n ∧ n ≤ 65535)
  | .u32, n => decide (0 ≤ n ∧ n ≤ 4294967295)
  | .u, n | .u64, n => decide (0 ≤ n ∧ n ≤ 18446744073709551615)

/-- Whether the Go integer kind is signed (`reflect.Value.Int` aborts at
run time on a value of an unsigned kind). -/
def IntKind.isSigned : IntKind → Bool
  | .i | .i8 | .i16 | .i32 | .i64 => true
  | .u | .u8 | .u16 | .u32 | .u64 => false

/-- Go truncation `int64(x)` of a float64 value: toward zero.  (The Go
conversion is unspecified when `x` lies outside the int64 range; no
theorem below exercises that case.) -/
def goTrunc (q : ℚ) : Int :=
  if 0 ≤ q then Int.floor q else Int.ceil q

/-- Floor of the base-2 logarithm, written with an explicit fuel
argument (the number itself bounds the recursion depth) so that it is
structurally recursive and the kernel can evaluate it. -/
def log2F : Nat → Nat → Nat
  | 0, _ => 0
  | fuel + 1, n => if n ≤ 1 then 0 else log2F fuel (n / 2) + 1

/-- Round an integer to the nearest integer value representable in an
IEEE-754 binary64 (53-bit significand), ties to even.  This is the
result of the Go conversion `float64(n)`, and also of any double
addition or subtraction whose exact result is the integer `n` (IEEE
operations return the correctly rounded exact result, and every double
of magnitude at least `2^52` is an integer).  Integers of magnitude at
most `2^53` are exact; a larger integer is rounded to the nearest
multiple of the unit in the last place of its binade, `2^(floor(log2) - 52)`,
with a halfway value going to the even quotient. -/
def roundF64Int (n : Int) : Int :=
  if -9007199254740992 ≤ n ∧ n ≤ 9007199254740992 then n
  else
    let a := n.natAbs
    let ulp : Int := 2 ^ (log2F a a - 52)
    let q := Int.fdiv n ulp
    let r := n - q * ulp
    if 2 * r < ulp then q * ulp
    else if ulp < 2 * r then (q + 1) * ulp
    else if q % 2 = 0 then q * ulp else (q + 1) * ulp

/-- Whether a Unix second count passes through the date encode/decode
pipeline without float64 rounding: both the count and its epoch shift by
978307200 must be integers of magnitude at most `2^53`, the range in
which every integer is representable in a 53-bit significand. -/
def secF64Exact (sec : Int) : Bool :=
  decide (-9007199254740992 + 978307200 ≤ sec ∧ sec ≤ 9007199254740992)

/-- The double addition `seconds + 978307200` performed by the decoders
on the stored CFAbsoluteTime.  For an integer-valued payload — every
payload the embedded encoder can produce — the exact sum is an integer
and IEEE addition returns its correctly rounded value, `roundF64Int`.
A fractional payload is handled with exact rational addition; no theorem
below quantifies over fractional date payloads. -/
def addEpochF64 (q : ℚ) : ℚ :=
  if q.den = 1 then ((roundF64Int (q.num + 978307200) : Int) : ℚ)
  else q + 978307200

/-- `TimeToCFDate` (foundation.go): `float64(t.Unix()) - 978307200`, the
CFAbsoluteTime payload of the created CFDate.  `t.Unix()` is `t.sec`
(sub-second precision is dropped here); its conversion to float64 rounds
to `roundF64Int t.sec`, and the subtraction of the exactly representable
constant 978307200 has an exact integer result that IEEE subtraction
rounds again with `roundF64Int`. -/
def TimeToCFDate (t : GoTime) : ℚ :=
  ((roundF64Int (roundF64Int t.sec - 978307200) : Int) : ℚ)

/-- `CFDateToTime` (foundation.go):
`time.Unix(int64(seconds+978307200), 0).UTC()`, with the double addition
modelled by `addEpochF64` and the `int64` conversion by `goTrunc`. -/
def CFDateToTime (abs : ℚ) : GoTime :=
  ⟨goTrunc (addEpochF64 abs), 0⟩

/-- `timeToCFDate` (part_000), identical to `TimeToCFDate`. -/
def timeToCFDate (t : GoTime) : ℚ :=
  ((roundF64Int (roundF64Int t.sec - 978307200) : Int) : ℚ)

/-- `cfDateToTime` (part_000), identical to `CFDateToTime`. -/
def cfDateToTime (abs : ℚ) : GoTime :=
  ⟨goTrunc (addEpochF64 abs), 0⟩

/-- `CFStringToString` (foundation.go) as the part_000 dictionary decoder
applies it: the Go code casts an arbitrary `CFTypeRef` to `CFStringRef`
and reads it.  On an actual string object it yields its contents; on any
other object the native behaviour is undefined, modelled here by the
empty string (the zero-length fast path of the source). -/
def cfStringToString : CFObj → String
  | .cfString s => s
  | _ => ""

/-- `MapToCFDictionary` (foundation.go): takes the address of element 0 of
the `keys` slice before calling `CFDictionaryCreate`, so a zero-entry map
aborts with an index-out-of-range runtime error. -/
def MapToCFDictionary (m : List (CFObj × CFObj)) : Res CFObj :=
  if m.length = 0 then .crash else .ok (.cfDict m)

mutual

/-- `ConvertToCFType` (foundation.go, lines 156-237).  The numeric case
computes both an `int64Value` and a `floatValue` and then chooses the
CFNumber subtype by testing `floatValue != 0`. -/
def ConvertToCFType : GoValue → Res CFObj
  | .str s => .ok (.cfString s)
  | .bytes b =>
      if 4294967295 < b.length then .err .dataTooLarge else .ok (.cfData b)
  | .boolean b => .ok (.cfBoolean b)
  | .time t => .ok (.cfDate (TimeToCFDate t))
  | .intv k n =>
      let int64Value := goIntToInt64 k n
      let floatValue : ℚ := 0
      if floatValue ≠ 0 then .ok (.cfNumberFloat floatValue)
      else .ok (.cfNumberInt int64Value)
  | .floatv _ x =>
      let int64Value : Int := 0
      let floatValue : ℚ := x
      if floatValue ≠ 0 then .ok (.cfNumberFloat floatValue)
      else .ok (.cfNumberInt int64Value)
  | .array xs =>
      match convertArrayItems 0 xs with
      | .err e => .err e
      | .crash => .crash
      | .ok cfValues =>
          if cfValues.length = 0 then .crash
          else .ok (.cfArray cfValues)
  | .dict m =>
      -- the call to `ConvertMapToCFDictionary` with its body unfolded one
      -- step (the wrapper is defined after this block; see
      -- `ConvertToCFType_dict_eq` for the source-shaped equation)
      match convertMapEntries m [] with
      | .err e => .err (.mapConvError e)
      | .crash => .crash
      | .ok mm =>
          match MapToCFDictionary mm with
          | .err e => .err (.mapConvError e)
          | .crash => .crash
          | .ok d => .ok d
  | .nilv => .err (.unsupportedType "<nil>")
  | .other tn => .err (.unsupportedType tn)
termination_by structural v => v

/-- The element loop of the `[]interface{}` case of `ConvertToCFType`:
convert each item, aborting on the first failure with the index recorded
in the error.  Already-converted items are not released on failure. -/
def convertArrayItems : Nat → List GoValue → Res (List CFObj)
  | _, [] => .ok []
  | i, item :: rest =>
      match ConvertToCFType item with
      | .err e => .err (.arrayItemError i e)
      | .crash => .crash
      | .ok cfItem =>
          match convertArrayItems (i + 1) rest with
          | .err e => .err e
          | .crash => .crash
          | .ok cfItems => .ok (cfItem :: cfItems)
termination_by structural i l => l

/-- The entry loop of `ConvertMapToCFDictionary` (foundation.go, lines
108-124): each key becomes a CFString, each value is converted; a value
failure releases only that key and aborts. -/
def convertMapEntries : List (String × GoValue) → List (CFObj × CFObj) →
    Res (List (CFObj × CFObj))
  | [], m => .ok m
  | (key, value) :: rest, m =>
      let keyRef : CFObj := .cfString key
      match ConvertToCFType value with
      | .err e => .err (.dictValueError key e)
      | .crash => .crash
      | .ok valueRef => convertMapEntries rest (m ++ [(keyRef, valueRef)])
termination_by structural l m => l

end

/-- `ConvertMapToCFDictionary` (foundation.go): build the key/value map,
then hand it to `MapToCFDictionary`. -/
def ConvertMapToCFDictionary (attr : List (String × GoValue)) : Res CFObj :=
  match convertMapEntries attr [] with
  | .err e => .err e
  | .crash => .crash
  | .ok m => MapToCFDictionary m

/-- Keep a list of optional references only when none is the NULL
reference. -/
def stripOpt : List (Option CFObj) → Option (List CFObj)
  | [] => some []
  | none :: _ => none
  | some o :: rest => (stripOpt rest).map (fun l => o :: l)

/-- Keep a list of key/value pairs only when no value is the NULL
reference. -/
def stripOptPairs : List (CFObj × Option CFObj) → Option (List (CFObj × CFObj))
  | [] => some []
  | (_, none) :: _ => none
  | (k, some v) :: rest => (stripOptPairs rest).map (fun l => (k, v) :: l)

/-- `mapToCFDictionary` (part_000): same zero-entry abort as the exported
variant; additionally, a NULL value reference (produced by converting a
nil interface value) makes `CFDictionaryCreate` retain NULL, which
dereferences it — modelled as `crash`. -/
def mapToCFDictionary (m : List (CFObj × Option CFObj)) : Res CFObj :=
  if m.length = 0 then .crash
  else
    match stripOptPairs m with
    | none => .crash
    | some m2 => .ok (.cfDict m2)

mutual

/-- `convertToCFType` (part_000, lines 157-222).  Differs from the
exported variant in three ways: a nil interface value returns the NULL
reference without error; the numeric case dispatches on the static kind
via `reflect` (so every float, including zero, becomes a double, while an
unsigned integer makes `reflect.Value.Int` abort at run time); arrays go
through `convertSliceToCFArray`. -/
def convertToCFType : GoValue → Res (Option CFObj)
  | .nilv => .ok none
  | .str s => .ok (some (.cfString s))
  | .bytes b =>
      if 4294967295 < b.length then .err .dataTooLarge
      else .ok (some (.cfData b))
  | .boolean b => .ok (some (.cfBoolean b))
  | .time t => .ok (some (.cfDate (timeToCFDate t)))
  | .intv k n =>
      if k.isSigned then .ok (some (.cfNumberInt n)) else .crash
  | .floatv _ x => .ok (some (.cfNumberFloat x))
  | .array xs =>
      -- the call to `convertSliceToCFArray` with its body unfolded one
      -- step (the wrapper is defined after this block; see
      -- `convertToCFType_array_eq`)
      match convertSliceItems 0 xs with
      | .err e => .err e
      | .crash => .crash
      | .ok cfValues =>
          if cfValues.length = 0 then .crash
          else
            match stripOpt cfValues with
            | none => .crash
            | some objs => .ok (some (.cfArray objs))
  | .dict m =>
      -- the call to `convertMapToCFDictionary` with its body unfolded one
      -- step (the wrapper is defined after this block; see
      -- `convertToCFType_dict_eq`)
      match convertMapEntriesLw m [] with
      | .err e => .err e
      | .crash => .crash
      | .ok mm =>
          match mapToCFDictionary mm with
          | .err e => .err e
          | .crash => .crash
          | .ok d => .ok (some d)
  | .other tn => .err (.unsupportedType tn)
termination_by structural v => v

/-- The element loop of `convertSliceToCFArray` (part_000). -/
def convertSliceItems : Nat → List GoValue → Res (List (Option CFObj))
  | _, [] => .ok []
  | i, item :: rest =>
      match convertToCFType item with
      | .err e => .err (.arrayItemError i e)
      | .crash => .crash
      | .ok cfItem =>
          match convertSliceItems (i + 1) rest with
          | .err e => .err e
          | .crash => .crash
          | .ok cfItems => .ok (cfItem :: cfItems)
termination_by structural i l => l

/-- The entry loop of `convertMapToCFDictionary` (part_000). -/
def convertMapEntriesLw : List (String × GoValue) → List (CFObj × Option CFObj) →
    Res (List (CFObj × Option CFObj))
  | [], m => .ok m
  | (key, value) :: rest, m =>
      let keyRef : CFObj := .cfString key
      match convertToCFType value with
      | .err e => .err (.dictValueError key e)
      | .crash => .crash
      | .ok valueRef => convertMapEntriesLw rest (m ++ [(keyRef, valueRef)])
termination_by structural l m => l

end

/-- `convertSliceToCFArray` (part_000, lines 224-236): converts every
element, then takes the address of element 0 of the buffer — so a
zero-element slice aborts — and calls `CFArrayCreate`, whose retain of a
NULL element is likewise modelled as `crash`. -/
def convertSliceToCFArray (xs : List GoValue) : Res (Option CFObj) :=
  match convertSliceItems 0 xs with
  | .err e => .err e
  | .crash => .crash
  | .ok cfValues =>
      if cfValues.length = 0 then .crash
      else
        match stripOpt cfValues with
        | none => .crash
        | some objs => .ok (some (.cfArray objs))

/-- `convertMapToCFDictionary` (part_000, lines 109-135). -/
def convertMapToCFDictionary (attr : List (String × GoValue)) : Res CFObj :=
  match convertMapEntriesLw attr [] with
  | .err e => .err e
  | .crash => .crash
  | .ok m => mapToCFDictionary m

mutual

/-- `ConvertFromCFType` (foundation.go, lines 240-283).  Dispatch on the
runtime type of the object; note that this variant has no case for
CFDictionary, so every dictionary falls through to the default
`unsupported CFTypeRef type` error.  Integer-subtype numbers are read
through the 64-bit accessor into an `int64`. -/
def ConvertFromCFType : CFObj → Except ConvErr GoValue
  | .cfString s => .ok (.str s)
  | .cfData b => .ok (.bytes b)
  | .cfBoolean b => .ok (.boolean b)
  | .cfDate abs => .ok (.time (CFDateToTime abs))
  | .cfNumberInt n => .ok (.intv .i64 n)
  | .cfNumberFloat x => .ok (.floatv .f64 x)
  | .cfArray items =>
      match ConvertFromItems 0 items with
      | .error e => .error e
      | .ok result => .ok (.array result)
  | .cfDict _ => .error .unsupportedCFType
termination_by structural o => o

/-- The element loop of the CFArray case of `ConvertFromCFType`. -/
def ConvertFromItems : Nat → List CFObj → Except ConvErr (List GoValue)
  | _, [] => .ok []
  | i, item :: rest =>
      match ConvertFromCFType item with
      | .error e => .error (.arrayItemError i e)
      | .ok convertedItem =>
          match ConvertFromItems (i + 1) rest with
          | .error e => .error e
          | .ok result => .ok (convertedItem :: result)
termination_by structural i l => l

end

/-- Go map assignment `result[key] = value` on an association list:
overwrite the binding if the key is present, otherwise append it. -/
def mapUpsert : List (String × GoValue) → String → GoValue →
    List (String × GoValue)
  | [], k, v => [(k, v)]
  | (k0, v0) :: rest, k, v =>
      if k0 = k then (k0, v) :: rest else (k0, v0) :: mapUpsert rest k v

mutual

/-- `convertFromCFType` (part_000, lines 239-298).  Same as the exported
variant except that integer-subtype numbers come back as Go `int`
(64-bit on this platform) and that CFDictionary objects are decoded. -/
def convertFromCFType : CFObj → Except ConvErr GoValue
  | .cfString s => .ok (.str s)
  | .cfData b => .ok (.bytes b)
  | .cfBoolean b => .ok (.boolean b)
  | .cfDate abs => .ok (.time (cfDateToTime abs))
  | .cfNumberInt n => .ok (.intv .i n)
  | .cfNumberFloat x => .ok (.floatv .f64 x)
  | .cfArray items =>
      match convertFromItemsLw 0 items with
      | .error e => .error e
      | .ok result => .ok (.array result)
  | .cfDict entries =>
      match convertDictEntries entries [] with
      | .error e => .error e
      | .ok result => .ok (.dict result)
termination_by structural o => o

/-- The element loop of the CFArray case of `convertFromCFType`. -/
def convertFromItemsLw : Nat → List CFObj → Except ConvErr (List GoValue)
  | _, [] => .ok []
  | i, item :: rest =>
      match convertFromCFType item with
      | .error e => .error (.arrayItemError i e)
      | .ok convertedItem =>
          match convertFromItemsLw (i + 1) rest with
          | .error e => .error e
          | .ok result => .ok (convertedItem :: result)
termination_by structural i l => l

/-- The entry loop of the CFDictionary case of `convertFromCFType`
(part_000, lines 279-294): every key is blindly read as a string via
`cfStringToString` — there is no key-type check — and every value is
decoded recursively, aborting on the first value failure. -/
def convertDictEntries : List (CFObj × CFObj) → List (String × GoValue) →
    Except ConvErr (List (String × GoValue))
  | [], result => .ok result
  | (k, v) :: rest, result =>
      let key := cfStringToString k
      match convertFromCFType v with
      | .error e => .error (.dictValueError key e)
      | .ok value => convertDictEntries rest (mapUpsert result key value)
termination_by structural l acc => l

end

/-- The string value of the `CurrentUser` scope constant. -/
def CurrentUser : String := "kCFPreferencesCurrentUser"

/-- The string value of the `AnyUser` scope constant. -/
def AnyUser : String := "kCFPreferencesAnyUser"

/-- The string value of the `CurrentHost` scope constant. -/
def CurrentHost : String := "kCFPreferencesCurrentHost"

/-- The string value of the `AnyHost` scope constant. -/
def AnyHost : String := "kCFPreferencesAnyHost"

/-- `PreferenceScope`: the user/host pair passed to `Set`/`Get`.  The
source wraps the strings in the `UserType`/`HostType` string types. -/
structure PreferenceScope where
  user : String
  host : String
deriving DecidableEq, Repr

/-- The in-memory view of one preference domain: key to native object. -/
def Store := List (String × CFObj)

/-- Look up a key in the store model. -/
def storeGet : Store → String → Option CFObj
  | [], _ => none
  | (k0, v0) :: rest, k => if k0 = k then some v0 else storeGet rest k

/-- Write or overwrite a key in the store model. -/
def storeUpsert : Store → String → CFObj → Store
  | [], k, v => [(k, v)]
  | (k0, v0) :: rest, k, v =>
      if k0 = k then (k0, v) :: rest else (k0, v0) :: storeUpsert rest k v

/-- Models the external `CFPreferencesSetValue` call, which is outside
this repository: per the platform documentation the spec relies on (§6),
passing a NULL value removes the key and a non-NULL value stores it. -/
def CFPreferencesSetValue (key : String) (value : Option CFObj) (st : Store) :
    Store :=
  match value with
  | none => st.filter (fun p => p.1 != key)
  | some v => storeUpsert st key v

/-- `Set` (the scope-taking access-layer wrapper built on the part_000
converters): create the key string, convert the value with
`convertToCFType` (an error aborts the call), validate the scope strings,
then hand the possibly-NULL value reference to `CFPreferencesSetValue`
and synchronize (synchronization is modelled as succeeding). -/
def Set (key : String) (value : GoValue) (applicationID : String)
    (scope : PreferenceScope) (st : Store) : Res Store :=
  match convertToCFType value with
  | .err e => .err (.setConvError e)
  | .crash => .crash
  | .ok cValue =>
      if scope.user = CurrentUser ∨ scope.user = AnyUser then
        if scope.host = CurrentHost ∨ scope.host = AnyHost then
          .ok (CFPreferencesSetValue key cValue st)
        else .err .invalidHostType
      else .err .invalidUserType

/-- Whether a string survives the `C.CString` +
`CFStringCreateWithCString` path unchanged: the Go code passes a
NUL-terminated UTF-8 buffer, so a string with an interior NUL byte would
be truncated at the native layer.  (Lean strings are always valid
UTF-8, so only the NUL condition is left to state.) -/
def strOK (s : String) : Bool :=
  !(s.toList.contains (Char.ofNat 0))

mutual

/-- The value that the round-trip claim predicts for
`decode(encode(v))` under its stated normalizations: every integer comes
back as the same value retagged as a signed 64-bit integer, a timestamp
loses its sub-second part, and a float comes back as a 64-bit float. -/
def normalize : GoValue → GoValue
  | .intv _ n => .intv .i64 n
  | .floatv _ x => .floatv .f64 x
  | .time t => .time ⟨t.sec, 0⟩
  | .array xs => .array (normalizeList xs)
  | .dict es => .dict (normalizeEntries es)
  | v => v
termination_by structural v => v

/-- `normalize` mapped over a sequence. -/
def normalizeList : List GoValue → List GoValue
  | [] => []
  | x :: xs => normalize x :: normalizeList xs
termination_by structural l => l

/-- `normalize` mapped over the values of a mapping. -/
def normalizeEntries : List (String × GoValue) → List (String × GoValue)
  | [] => []
  | (k, v) :: es => (k, normalize v) :: normalizeEntries es
termination_by structural l => l

end

mutual

/-- The class of values on which the foundation.go pair round-trips (the
amended round-trip claim): NUL-free strings, byte sequences within the
32-bit length bound, booleans, timestamps whose second count survives
the float64 conversions, integers whose value survives the `int64`
widening, nonzero floats, and nonempty sequences of such values.
Excluded — each by an explicit counterexample elsewhere in this file —
are the absent value, zero floats (they decode as the integer 0),
wrapping unsigned integers, timestamps beyond the 53-bit-exact second
range (their second count is rounded), empty sequences and empty
mappings (encode crashes), all mappings (the foundation.go decoder has
no dictionary case), and unsupported shapes. -/
def roundGood : GoValue → Bool
  | .nilv => false
  | .str s => strOK s
  | .bytes b => decide (b.length ≤ 4294967295)
  | .boolean _ => true
  | .time t => secF64Exact t.sec
  | .intv k n => inRange k n && decide (goIntToInt64 k n = n)
  | .floatv _ x => !(decide (x = 0))
  | .array xs => !xs.isEmpty && roundGoodList xs
  | .dict _ => false
  | .other _ => false
termination_by structural v => v

/-- `roundGood` over every element of a sequence. -/
def roundGoodList : List GoValue → Bool
  | [] => true
  | x :: xs => roundGood x && roundGoodList xs
termination_by structural l => l

end

/-- Decode after encode through the exported foundation.go pair; `none`
when either direction fails to produce a value. -/
def roundTrip (v : GoValue) : Option GoValue :=
  match ConvertToCFType v with
  | .ok o =>
      match ConvertFromCFType o with
      | .ok w => some w
      | .error _ => none
  | .err _ => none
  | .crash => none

namespace Alloc

/-!
An instrumented re-embedding of the foundation.go encode path that tracks
native-object lifetimes.  References are numbered: `0` is `NilCFType`,
`1` and `2` are the process-wide `kCFBooleanFalse`/`kCFBooleanTrue`
singletons (never allocated), and every creation call hands out the next
fresh number starting at `3`.  `live` lists references created by this
call and not yet released, in creation order; `released` logs every
`CFRelease` invocation, in order.
-/

/-- The NULL native reference (`NilCFType` in the source). -/
def NilCFType : Nat := 0

/-- The `kCFBooleanFalse` process-wide singleton. -/
def kCFBooleanFalseRef : Nat := 1

/-- The `kCFBooleanTrue` process-wide singleton. -/
def kCFBooleanTrueRef : Nat := 2

/-- Allocation bookkeeping: next fresh reference, references created and
not yet released, and the log of `CFRelease` invocations. -/
structure AllocState where
  next : Nat
  live : List Nat
  released : List Nat
deriving DecidableEq, Repr

/-- The state at the start of an outermost conversion call. -/
def init : AllocState := ⟨3, [], []⟩

/-- A native creation call: returns a fresh owned reference. -/
def alloc (s : AllocState) : Nat × AllocState :=
  (s.next, ⟨s.next + 1, s.live ++ [s.next], s.released⟩)

/-- `C.CFRelease`: drop the reference and log the invocation. -/
def CFRelease (ref : Nat) (s : AllocState) : AllocState :=
  ⟨s.next, s.live.erase ref, s.released ++ [ref]⟩

/-- `Release` (foundation.go, lines 137-141): `CFRelease` on every
reference other than `NilCFType` — the only identity it checks for is the
NULL reference. -/
def Release (ref : Nat) (s : AllocState) : AllocState :=
  if ref ≠ NilCFType then CFRelease ref s else s

mutual

/-- `ConvertToCFType` (foundation.go) with allocation tracking.  Each
creation call allocates; the only `CFRelease` on any failure path of this
function is the one in the dictionary loop that drops the key whose value
failed to convert. -/
def ConvertToCFTypeA : GoValue → AllocState → Res Nat × AllocState
  | .nilv, s => (.err (.unsupportedType "<nil>"), s)
  | .str _, s => let a := alloc s; (.ok a.1, a.2)
  | .bytes b, s =>
      if 4294967295 < b.length then (.err .dataTooLarge, s)
      else let a := alloc s; (.ok a.1, a.2)
  | .boolean b, s =>
      (.ok (if b then kCFBooleanTrueRef else kCFBooleanFalseRef), s)
  | .time _, s => let a := alloc s; (.ok a.1, a.2)
  | .intv _ _, s => let a := alloc s; (.ok a.1, a.2)
  | .floatv _ _, s => let a := alloc s; (.ok a.1, a.2)
  | .array xs, s =>
      match convertArrayItemsA 0 xs s with
      | (.err e, s1) => (.err e, s1)
      | (.crash, s1) => (.crash, s1)
      | (.ok refs, s1) =>
          if refs.length = 0 then (.crash, s1)
          else let a := alloc s1; (.ok a.1, a.2)
  | .dict m, s =>
      -- the call to `ConvertMapToCFDictionaryA` with its body unfolded
      -- one step (the wrapper is defined after this block)
      match convertMapEntriesA m [] s with
      | (.err e, s1) => (.err (.mapConvError e), s1)
      | (.crash, s1) => (.crash, s1)
      | (.ok mm, s1) =>
          if mm.length = 0 then (.crash, s1)
          else let a := alloc s1; (.ok a.1, a.2)
  | .other tn, s => (.err (.unsupportedType tn), s)
termination_by structural v s => v

/-- The array-element loop with allocation tracking: on the first element
failure the loop returns at once, releasing none of the elements already
converted. -/
def convertArrayItemsA : Nat → List GoValue → AllocState →
    Res (List Nat) × AllocState
  | _, [], s => (.ok [], s)
  | i, item :: rest, s =>
      match ConvertToCFTypeA item s with
      | (.err e, s1) => (.err (.arrayItemError i e), s1)
      | (.crash, s1) => (.crash, s1)
      | (.ok r, s1) =>
          match convertArrayItemsA (i + 1) rest s1 with
          | (.err e, s2) => (.err e, s2)
          | (.crash, s2) => (.crash, s2)
          | (.ok rs, s2) => (.ok (r :: rs), s2)
termination_by structural i l s => l

/-- The dictionary-entry loop of `ConvertMapToCFDictionary` with
allocation tracking: a value failure releases the key created for that
entry — and nothing else — before aborting. -/
def convertMapEntriesA : List (String × GoValue) → List (Nat × Nat) →
    AllocState → Res (List (Nat × Nat)) × AllocState
  | [], m, s => (.ok m, s)
  | (key, value) :: rest, m, s =>
      let a := alloc s
      match ConvertToCFTypeA value a.2 with
      | (.err e, s2) => (.err (.dictValueError key e), CFRelease a.1 s2)
      | (.crash, s2) => (.crash, s2)
      | (.ok valueRef, s2) =>
          convertMapEntriesA rest (m ++ [(a.1, valueRef)]) s2
termination_by structural l m s => l

end

/-- `ConvertMapToCFDictionary` (foundation.go) with allocation tracking;
`CFDictionaryCreate` aborts on a zero-entry map and is otherwise modelled
as succeeding, so the release-everything loop guarding its failure is
unreachable. -/
def ConvertMapToCFDictionaryA (attr : List (String × GoValue))
    (s : AllocState) : Res Nat × AllocState :=
  match convertMapEntriesA attr [] s with
  | (.err e, s1) => (.err e, s1)
  | (.crash, s1) => (.crash, s1)
  | (.ok m, s1) =>
      if m.length = 0 then (.crash, s1)
      else let a := alloc s1; (.ok a.1, a.2)

/-- `Set` (the scope-taking wrapper over the exported converters, as in
part_001): defers `Release` of the key string, of the converted value
when it is not NULL, and of the application-id string; the deferred
releases run in reverse order on every exit path. -/
def SetA (key : String) (value : GoValue) (applicationID : String)
    (scope : MacPrefs.PreferenceScope) (s0 : AllocState) :
    Res Unit × AllocState :=
  let k := alloc s0
  match ConvertToCFTypeA value k.2 with
  | (.err e, s2) => (.err (.setConvError e), Release k.1 s2)
  | (.crash, s2) => (.crash, Release k.1 s2)
  | (.ok cValue, s2) =>
      let appRef := alloc s2
      let finish := fun (s : AllocState) =>
        Release k.1 (Release cValue (Release appRef.1 s))
      if scope.user = MacPrefs.CurrentUser ∨ scope.user = MacPrefs.AnyUser then
        if scope.host = MacPrefs.CurrentHost ∨ scope.host = MacPrefs.AnyHost then
          (.ok (), finish appRef.2)
        else (.err .invalidHostType, finish appRef.2)
      else (.err .invalidUserType, finish appRef.2)

/-- The references handed out by `n` consecutive allocations starting at
reference `a`. -/
def refsFrom : Nat → Nat → List Nat
  | _, 0 => []
  | a, n + 1 => a :: refsFrom (a + 1) n

/-- The key/value reference pairs created by a run of dictionary-loop
iterations that allocate two references each, starting at `a`. -/
def pairRefs : Nat → Nat → List (Nat × Nat)
  | _, 0 => []
  | a, n + 1 => (a, a + 1) :: pairRefs (a + 2) n

end Alloc

/-! Source-shape equations for the calls inlined to satisfy the
termination checker. -/

/-- The dictionary case of `ConvertToCFType` is the source-shaped
composition through `ConvertMapToCFDictionary`. -/
theorem ConvertToCFType_dict_eq (m : List (String × GoValue)) :
    ConvertToCFType (.dict m) =
      match ConvertMapToCFDictionary m with
      | .err e => .err (.mapConvError e)
      | .crash => .crash
      | .ok d => .ok d := by
  unfold ConvertToCFType ConvertMapToCFDictionary
  cases convertMapEntries m [] with
  | ok mm => cases MapToCFDictionary mm <;> rfl
  | err e => rfl
  | crash => rfl

/-- The array case of `convertToCFType` is the source-shaped call of
`convertSliceToCFArray`. -/
theorem convertToCFType_array_eq (xs : List GoValue) :
    convertToCFType (.array xs) = convertSliceToCFArray xs := by
  unfold convertToCFType convertSliceToCFArray
  rfl

/-- The dictionary case of `convertToCFType` is the source-shaped
composition through `convertMapToCFDictionary`. -/
theorem convertToCFType_dict_eq (m : List (String × GoValue)) :
    convertToCFType (.dict m) =
      match convertMapToCFDictionary m with
      | .err e => .err e
      | .crash => .crash
      | .ok d => .ok (some d) := by
  unfold convertToCFType convertMapToCFDictionary
  cases convertMapEntriesLw m [] with
  | ok mm => cases mapToCFDictionary mm <;> rfl
  | err e => rfl
  | crash => rfl

/-! Theorems about the date conversions. -/

theorem goTrunc_intCast (n : Int) : goTrunc ((n : ℚ)) = n := by
  unfold goTrunc
  split <;> simp

/-- Shared helper: rounding is the identity on the 53-bit-exact range. -/
theorem roundF64Int_eq_self (n : Int) (h1 : -9007199254740992 ≤ n)
    (h2 : n ≤ 9007199254740992) : roundF64Int n = n := by
  unfold roundF64Int
  rw [if_pos ⟨h1, h2⟩]

/-- Shared helper: the decoder applied to an integer-valued payload adds
the epoch constant with one float64 rounding and truncates. -/
theorem CFDateToTime_intCast (m : Int) :
    CFDateToTime ((m : ℚ)) = ⟨roundF64Int (m + 978307200), 0⟩ := by
  unfold CFDateToTime addEpochF64
  rw [if_pos (by simp : ((m : ℚ)).den = 1),
    show (((m : ℚ)).num) = m by simp, goTrunc_intCast]

/-- Shared helper: decoding an encoded date recovers the whole-second
instant when the second count is within the float64-exact range. -/
theorem CFDateToTime_TimeToCFDate (t : GoTime) (h : secF64Exact t.sec = true) :
    CFDateToTime (TimeToCFDate t) = ⟨t.sec, 0⟩ := by
  have hb : -9007199254740992 + 978307200 ≤ t.sec ∧
      t.sec ≤ 9007199254740992 := by
    simpa [secF64Exact] using h
  have e1 : roundF64Int t.sec = t.sec :=
    roundF64Int_eq_self _ (by omega) (by omega)
  have e2 : roundF64Int (t.sec - 978307200) = t.sec - 978307200 :=
    roundF64Int_eq_self _ (by omega) (by omega)
  unfold TimeToCFDate
  rw [e1, e2, CFDateToTime_intCast,
    show t.sec - 978307200 + 978307200 = t.sec by ring, e1]

/-- C9 counterexample: the whole-second instant with Unix second
`2^53 + 1` does not round-trip: `float64(2^53 + 1)` rounds (ties to
even) to `2^53`, so decoding returns the instant one second earlier, not
the same instant. -/
theorem cfdate_roundtrip_breaks :
    CFDateToTime (TimeToCFDate ⟨9007199254740993, 0⟩) =
      ⟨9007199254740992, 0⟩ ∧
    (⟨9007199254740992, 0⟩ : GoTime) ≠ ⟨9007199254740993, 0⟩ := by
  constructor
  · have e0 : TimeToCFDate ⟨9007199254740993, 0⟩ =
        ((roundF64Int (roundF64Int 9007199254740993 - 978307200) : Int) : ℚ) :=
      rfl
    have e1 : roundF64Int 9007199254740993 = 9007199254740992 := by decide
    have e2 : roundF64Int (9007199254740992 - 978307200) =
        9007199254740992 - 978307200 :=
      roundF64Int_eq_self _ (by decide) (by decide)
    rw [e0, e1, e2, CFDateToTime_intCast,
      show (9007199254740992 - 978307200 : Int) + 978307200 =
        9007199254740992 by ring,
      roundF64Int_eq_self _ (by decide) (by decide)]
  · decide

/-- C9 amended: encode maps a timestamp to float64(Unix seconds) minus
978307200 with sub-second precision dropped, and decode applies the
inverse transform; because the second count passes through float64,
which has a 53-bit significand, the round-trip to the same instant holds
for whole-second instants whose Unix second lies between
`-2^53 + 978307200` and `2^53` (where the conversion and the epoch
arithmetic are exact), and there the payload equals the Unix seconds
minus 978307200 exactly. -/
theorem cfdate_roundtrip :
    (∀ t : GoTime, secF64Exact t.sec = true →
        TimeToCFDate t = (t.sec : ℚ) - 978307200) ∧
    (∀ t : GoTime, secF64Exact t.sec = true →
        CFDateToTime (TimeToCFDate t) = ⟨t.sec, 0⟩) ∧
    (∀ t : GoTime, secF64Exact t.sec = true → t.nsec = 0 →
        CFDateToTime (TimeToCFDate t) = t) := by
  refine ⟨fun t h => ?_, CFDateToTime_TimeToCFDate, fun t h h0 => ?_⟩
  · have hb : -9007199254740992 + 978307200 ≤ t.sec ∧
        t.sec ≤ 9007199254740992 := by
      simpa [secF64Exact] using h
    unfold TimeToCFDate
    rw [roundF64Int_eq_self t.sec (by omega) (by omega),
      roundF64Int_eq_self _ (by omega) (by omega)]
    push_cast
    ring
  · rw [CFDateToTime_TimeToCFDate t h]
    obtain ⟨sec, nsec⟩ := t
    simp only [GoTime.mk.injEq]
    exact ⟨trivial, h0.symm⟩

/-- C9 witness: the instant 2023-05-01T12:00:00Z (Unix second
1682942400, within the float64-exact range) round-trips to itself. -/
theorem cfdate_roundtrip_witness :
    CFDateToTime (TimeToCFDate ⟨1682942400, 0⟩) = ⟨1682942400, 0⟩ :=
  cfdate_roundtrip.2.2 ⟨1682942400, 0⟩ (by decide) rfl

/-! Theorems about encoding the nil (absent) value. -/

/-- C2: in the exported foundation.go variant, `ConvertToCFType(nil)`
falls into the default case and fails with `unsupported type: <nil>`, so
a `Set` built on it fails instead of deleting; the part_000 variant
`convertToCFType` returns the NULL sentinel without error, and the `Set`
built on it deletes the key from the store. -/
theorem nil_value_set_behavior :
    ConvertToCFType GoValue.nilv = .err (.unsupportedType "<nil>") ∧
    convertToCFType GoValue.nilv = .ok none ∧
    Set "TestSetDeleteKey" GoValue.nilv "com.github.weswhet.mac_prefs.test"
        ⟨CurrentUser, CurrentHost⟩
        [("TestSetDeleteKey", .cfString "TestSetDeleteValue")] = .ok [] := by
  refine ⟨rfl, rfl, ?_⟩
  rfl

/-! Theorems about empty aggregates. -/

/-- C10: encoding a zero-element ordered sequence or a zero-element
string-keyed mapping aborts with a runtime index-out-of-range error in
both converter variants (`&cfValues[0]` resp. `&keys[0]` on an empty Go
slice), rather than returning a result or an error. -/
theorem empty_aggregate_crash :
    ConvertToCFType (.array []) = .crash ∧
    ConvertToCFType (.dict []) = .crash ∧
    convertToCFType (.array []) = .crash ∧
    convertToCFType (.dict []) = .crash :=
  ⟨rfl, rfl, rfl, rfl⟩

/-! Theorems about float encoding. -/

/-- C3 counterexample: the float value `0.0` is encoded by
`ConvertToCFType` as a CFNumber with the integer (`kCFNumberLongLongType`)
subtype, not a float-family subtype, and therefore decodes as the integer
`0`, not as a float. -/
theorem float_zero_integer_subtype :
    ConvertToCFType (.floatv .f64 0) = .ok (.cfNumberInt 0) ∧
    ConvertFromCFType (.cfNumberInt 0) = .ok (.intv .i64 0) :=
  ⟨rfl, rfl⟩

/-- C3 amended: `ConvertToCFType` stores a nonzero float (of either
width) in a CFNumber with the double subtype and performs no range check,
but stores a zero float as the integer `0` with the long-long subtype
(the zero test `floatValue != 0` picks the subtype); the part_000 variant
`convertToCFType` stores every float, including zero, with the double
subtype. -/
theorem float_encoding_characterization :
    (∀ (k : FloatKind) (x : ℚ), x ≠ 0 →
        ConvertToCFType (.floatv k x) = .ok (.cfNumberFloat x)) ∧
    (∀ k : FloatKind, ConvertToCFType (.floatv k 0) = .ok (.cfNumberInt 0)) ∧
    (∀ (k : FloatKind) (x : ℚ),
        convertToCFType (.floatv k x) = .ok (some (.cfNumberFloat x))) := by
  refine ⟨fun k x hx => ?_, fun k => rfl, fun k x => rfl⟩
  simp [ConvertToCFType, hx]

/-- C3 witness: the nonzero float `3.14` is stored with the double
subtype. -/
theorem float_encoding_witness :
    ConvertToCFType (.floatv .f32 (157 / 50)) = .ok (.cfNumberFloat (157 / 50)) :=
  float_encoding_characterization.1 .f32 (157 / 50) (by norm_num)

/-! Theorems about integer encoding. -/

/-- C5 counterexample: the uint64 value `2^63`, which is outside the
signed 64-bit range, does not fail with any error — `ConvertToCFType`
silently wraps it with the Go conversion `int64(num)` and encodes the
negative number `-2^63`. -/
theorem uint64_wraps_no_error :
    ConvertToCFType (.intv .u64 9223372036854775808) =
      .ok (.cfNumberInt (-9223372036854775808)) := by
  rfl

/-- C5 amended: `ConvertToCFType` widens every integer kind to `int64`
via the Go conversion `int64(num)` and always succeeds: the conversion is
value-preserving for signed kinds and for unsigned values of at most
`2^63 - 1`, while `uint`/`uint64` values above that wrap around modulo
`2^64`; no range check is performed and no too-large error exists. -/
theorem int_widening_characterization :
    (∀ (k : IntKind) (n : Int),
        ConvertToCFType (.intv k n) = .ok (.cfNumberInt (goIntToInt64 k n))) ∧
    (∀ (k : IntKind) (n : Int), k.isSigned = true → goIntToInt64 k n = n) ∧
    (∀ (k : IntKind) (n : Int), k.isSigned = false → inRange k n = true →
        n ≤ 9223372036854775807 → goIntToInt64 k n = n) ∧
    (∀ n : Int, 9223372036854775808 ≤ n → n ≤ 18446744073709551615 →
        goIntToInt64 .u64 n = n - 18446744073709551616) := by
  refine ⟨fun k n => ?_, fun k n h => ?_, fun k n h h2 h3 => ?_, fun n h1 h2 => ?_⟩
  · cases k <;> simp [ConvertToCFType]
  · cases k <;> first
      | rfl
      | simp [IntKind.isSigned] at h
  · cases k <;> simp_all [IntKind.isSigned, goIntToInt64, inRange] <;> omega
  · simp only [goIntToInt64]
    omega

/-- C5 witness: the largest uint64 value wraps to `-1` instead of
failing. -/
theorem int_widening_witness :
    goIntToInt64 .u64 18446744073709551615 = -1 := by
  have h := int_widening_characterization.2.2.2 18446744073709551615
    (by norm_num) (by norm_num)
  rw [h]
  norm_num

/-! Theorems about dictionary keys in decoding. -/

/-- C8 counterexample: decoding a native dictionary holding the non-string
key `CFNumber 7` does not fail with any key-type error: the part_000
decoder blindly reads the key as a string (undefined behaviour at the
native layer, modelled as the empty string) and produces a mapping, and
the foundation.go decoder rejects every dictionary — string-keyed or not —
with the generic `unsupported CFTypeRef type` error. -/
theorem nonstring_key_no_error :
    convertFromCFType (.cfDict [(.cfNumberInt 7, .cfString "x")]) =
      .ok (.dict [("", .str "x")]) ∧
    ConvertFromCFType (.cfDict [(.cfNumberInt 7, .cfString "x")]) =
      .error .unsupportedCFType :=
  ⟨rfl, rfl⟩

/-- C8 amended: the dictionary decoder performs no key-type check at all:
whatever the type of the key object, `convertFromCFType` reinterprets it
as a string via `cfStringToString` and, when the value decodes, returns a
mapping under that reinterpreted key; no `UnsupportedKeyType` error is
ever produced. -/
theorem dict_decode_ignores_key_type (k v : CFObj) (gv : GoValue)
    (h : convertFromCFType v = .ok gv) :
    convertFromCFType (.cfDict [(k, v)]) =
      .ok (.dict [(cfStringToString k, gv)]) := by
  simp [convertFromCFType, convertDictEntries, h, mapUpsert]

/-- C8 witness: a dictionary keyed by the boolean singleton decodes to a
mapping under the reinterpreted (empty) key. -/
theorem dict_decode_ignores_key_type_witness :
    convertFromCFType (.cfDict [(.cfBoolean true, .cfNumberInt 1)]) =
      .ok (.dict [("", .intv .i 1)]) :=
  dict_decode_ignores_key_type (.cfBoolean true) (.cfNumberInt 1)
    (.intv .i 1) rfl

/-! Round-trip theorems for the foundation.go encode/decode pair. -/

/-- C1 counterexample: the supported float value `0.0` does not
round-trip: `decode(encode(0.0))` is the 64-bit integer `0`, which is a
different dynamic value than the float `0.0` (and floats are not among
the normalizations the claim allows). -/
theorem roundtrip_float_zero_breaks :
    roundTrip (.floatv .f64 0) = some (.intv .i64 0) ∧
    GoValue.intv .i64 0 ≠ GoValue.floatv .f64 0 :=
  ⟨rfl, by simp⟩

/-- C1 amended: for every value in the `roundGood` class — NUL-free
strings, bounded byte sequences, booleans, timestamps whose second count
is exact in a float64, integers whose value survives the signed-64
widening, nonzero floats, and nonempty ordered sequences of such values —
decoding the result of encoding yields exactly the claimed
normalization: integers retagged as signed 64-bit with the same value,
timestamps truncated to whole seconds, floats as 64-bit floats,
everything else unchanged.  Zero floats, wrapping unsigned values,
timestamps beyond the 53-bit range, mappings, and empty aggregates are
excluded, each being refuted by a separate counterexample theorem. -/
theorem roundtrip_good (v : GoValue) (h : roundGood v = true) :
    roundTrip v = some (normalize v) := by
  suffices key : ∀ (fuel : Nat) (w : GoValue), sizeOf w ≤ fuel →
      roundGood w = true →
      ∃ o, ConvertToCFType w = Res.ok o ∧
        ConvertFromCFType o = Except.ok (normalize w) by
    obtain ⟨o, h1, h2⟩ := key (sizeOf v) v le_rfl h
    simp [roundTrip, h1, h2]
  intro fuel
  induction fuel with
  | zero =>
    intro w hw hg
    exfalso
    cases w <;> simp at hw
  | succ fuel ih =>
    intro w hw hg
    cases w with
    | nilv => simp [roundGood] at hg
    | str s => exact ⟨.cfString s, rfl, rfl⟩
    | bytes b =>
      refine ⟨.cfData b, ?_, rfl⟩
      have hb : ¬ 4294967295 < b.length := by
        simp [roundGood] at hg
        omega
      simp [ConvertToCFType, hb]
    | boolean b => exact ⟨.cfBoolean b, rfl, rfl⟩
    | time t =>
      have ht : secF64Exact t.sec = true := by simpa [roundGood] using hg
      refine ⟨.cfDate (TimeToCFDate t), rfl, ?_⟩
      simp [ConvertFromCFType, CFDateToTime_TimeToCFDate t ht, normalize]
    | intv k n =>
      have hg2 : inRange k n = true ∧ goIntToInt64 k n = n := by
        simpa [roundGood, Bool.and_eq_true, decide_eq_true_eq] using hg
      refine ⟨.cfNumberInt n, ?_, rfl⟩
      have henc : ConvertToCFType (.intv k n) =
          .ok (.cfNumberInt (goIntToInt64 k n)) := by
        simp [ConvertToCFType]
      rw [henc, hg2.2]
    | floatv k x =>
      have hx : ¬ x = 0 := by simpa [roundGood] using hg
      refine ⟨.cfNumberFloat x, ?_, rfl⟩
      simp [ConvertToCFType, hx]
    | dict es => simp [roundGood] at hg
    | other tn => simp [roundGood] at hg
    | array xs =>
      have hg2 : xs.isEmpty = false ∧ roundGoodList xs = true := by
        simpa [roundGood, Bool.and_eq_true] using hg
      have hsz : sizeOf xs ≤ fuel := by
        have hspec : sizeOf (GoValue.array xs) = 1 + sizeOf xs := by simp
        omega
      have hlist : ∀ (l : List GoValue), sizeOf l ≤ fuel →
          roundGoodList l = true → ∀ i j : Nat,
          ∃ objs : List CFObj,
            convertArrayItems i l = Res.ok objs ∧
            ConvertFromItems j objs = Except.ok (normalizeList l) ∧
            objs.length = l.length := by
        intro l
        induction l with
        | nil => exact fun _ _ i j => ⟨[], rfl, rfl, rfl⟩
        | cons x rest ihl =>
          intro hs hall i j
          have hx2 : roundGood x = true ∧ roundGoodList rest = true := by
            simpa [roundGoodList, Bool.and_eq_true] using hall
          have hcons : sizeOf (x :: rest) = 1 + sizeOf x + sizeOf rest := by
            simp
          obtain ⟨o, ho1, ho2⟩ := ih x (by omega) hx2.1
          obtain ⟨objs, h1, h2, h3⟩ := ihl (by omega) hx2.2 (i + 1) (j + 1)
          refine ⟨o :: objs, ?_, ?_, by simp [h3]⟩
          · simp [convertArrayItems, ho1, h1]
          · simp [ConvertFromItems, ho2, h2, normalizeList]
      obtain ⟨objs, h1, h2, h3⟩ := hlist xs hsz hg2.2 0 0
      have hne : ¬ objs.length = 0 := by
        rw [h3]
        cases xs with
        | nil => simp at hg2
        | cons a l => simp
      refine ⟨.cfArray objs, ?_, ?_⟩
      · simp [ConvertToCFType, h1, hne]
      · simp [ConvertFromCFType, h2, normalize]

/-- C1 witness: a nonempty heterogeneous sequence round-trips with the
integer element retagged as signed 64-bit. -/
theorem roundtrip_good_witness :
    roundTrip (.array [.str "apple", .intv .i 42, .boolean true]) =
      some (.array [.str "apple", .intv .i64 42, .boolean true]) := by
  have h := roundtrip_good
    (.array [.str "apple", .intv .i 42, .boolean true]) (by decide)
  exact h

/-! Theorems about decoding string-keyed dictionaries (part_000). -/

namespace Alloc

/-! Theorems about native-object lifetimes (foundation.go encode path). -/

theorem refsFrom_length (a n : Nat) : (refsFrom a n).length = n := by
  induction n generalizing a with
  | zero => rfl
  | succ n ihn => simp [refsFrom, ihn]

theorem refsFrom_add_two (a n : Nat) :
    refsFrom a (n + 2) = a :: (a + 1) :: refsFrom (a + 1 + 1) n := rfl

theorem erase_append_self (l : List Nat) (x : Nat) (hx : x ∉ l) :
    (l ++ [x]).erase x = l := by
  induction l with
  | nil => simp
  | cons a rest ihr =>
    simp only [List.mem_cons, not_or] at hx
    rw [List.cons_append, List.erase_cons,
      if_neg (fun he => hx.1 (eq_of_beq he).symm), ihr hx.2]

theorem convertArrayItemsA_strs_bad (ss : List String) :
    ∀ (i : Nat) (s : AllocState),
    convertArrayItemsA i (ss.map GoValue.str ++ [GoValue.nilv]) s =
      (.err (.arrayItemError (i + ss.length) (.unsupportedType "<nil>")),
       ⟨s.next + ss.length, s.live ++ refsFrom s.next ss.length,
        s.released⟩) := by
  induction ss with
  | nil =>
    intro i s
    cases s
    simp [convertArrayItemsA, ConvertToCFTypeA, refsFrom]
  | cons a ss ihs =>
    intro i s
    simp only [List.map_cons, List.length_cons, List.cons_append]
    rw [convertArrayItemsA]
    simp only [ConvertToCFTypeA, alloc]
    rw [ihs (i + 1) ⟨s.next + 1, s.live ++ [s.next], s.released⟩]
    have h1 : i + 1 + ss.length = i + (ss.length + 1) := by omega
    have h2 : s.next + 1 + ss.length = s.next + (ss.length + 1) := by omega
    simp [Prod.ext_iff, AllocState.mk.injEq, h1, h2, refsFrom,
      List.append_assoc]

theorem convertMapEntriesA_strs_bad (ps : List (String × String)) :
    ∀ (badKey : String) (m : List (Nat × Nat)) (s : AllocState),
    (∀ r ∈ s.live, r < s.next) →
    convertMapEntriesA
        (ps.map (fun p => (p.1, GoValue.str p.2)) ++ [(badKey, GoValue.nilv)])
        m s =
      (.err (.dictValueError badKey (.unsupportedType "<nil>")),
       ⟨s.next + 2 * ps.length + 1,
        s.live ++ refsFrom s.next (2 * ps.length),
        s.released ++ [s.next + 2 * ps.length]⟩) := by
  induction ps with
  | nil =>
    intro badKey m s hclean
    simp only [List.map_nil, List.nil_append, List.length_nil, Nat.mul_zero,
      Nat.add_zero, refsFrom, List.append_nil]
    rw [convertMapEntriesA]
    simp only [alloc, ConvertToCFTypeA, CFRelease]
    rw [erase_append_self s.live s.next
      (fun hmem => absurd (hclean _ hmem) (by omega))]
  | cons q ps ihq =>
    intro badKey m s hclean
    obtain ⟨ka, va⟩ := q
    simp only [List.map_cons, List.cons_append, List.length_cons]
    rw [convertMapEntriesA]
    simp only [alloc, ConvertToCFTypeA]
    rw [ihq badKey (m ++ [(s.next, s.next + 1)])
      ⟨s.next + 1 + 1, s.live ++ [s.next] ++ [s.next + 1], s.released⟩ ?clean]
    case clean =>
      intro r hr
      simp only [List.mem_append, List.mem_singleton] at hr
      show r < s.next + 1 + 1
      rcases hr with (h | h) | h
      · have := hclean r h
        omega
      · omega
      · omega
    have h1 : s.next + 1 + 1 + 2 * ps.length + 1 =
        s.next + 2 * (ps.length + 1) + 1 := by ring
    have h2 : 2 * (ps.length + 1) = 2 * ps.length + 2 := by ring
    have h3 : s.next + 1 + 1 + 2 * ps.length = s.next + 2 * (ps.length + 1) := by
      ring
    simp [Prod.ext_iff, AllocState.mk.injEq, h1, h2, h3, refsFrom_add_two,
      List.append_assoc]

/-- C7 counterexample: encoding the two-element sequence
`["a", nil]` fails at index 1 and unwinds, but the CFString already
created for element 0 (reference 3) is still live afterwards — it is
never released, contradicting the claim that every native object already
constructed is released before the error propagates. -/
theorem nested_failure_leaks_concrete :
    ConvertToCFTypeA (.array [.str "a", .nilv]) init =
      (.err (.arrayItemError 1 (.unsupportedType "<nil>")),
       ⟨4, [3], []⟩) ∧
    (⟨4, [3], []⟩ : AllocState).live ≠ [] :=
  ⟨rfl, by simp⟩

/-- C7 amended: when a nested conversion fails inside encode, the error
is propagated, but the native objects already constructed in that call
are NOT released: failing at the last element of a sequence leaves one
live (leaked) object per previously encoded element, and failing at the
last entry of a mapping leaves two live objects (key and value) per
previously encoded entry — the only release performed is of the single
key string whose value failed. -/
theorem nested_failure_leak_characterization :
    (∀ ss : List String,
        ConvertToCFTypeA (.array (ss.map GoValue.str ++ [.nilv])) init =
          (.err (.arrayItemError ss.length (.unsupportedType "<nil>")),
           ⟨3 + ss.length, refsFrom 3 ss.length, []⟩)) ∧
    (∀ (ps : List (String × String)) (badKey : String),
        ConvertToCFTypeA
            (.dict (ps.map (fun p => (p.1, GoValue.str p.2)) ++
              [(badKey, .nilv)])) init =
          (.err (.mapConvError
              (.dictValueError badKey (.unsupportedType "<nil>"))),
           ⟨3 + 2 * ps.length + 1, refsFrom 3 (2 * ps.length),
            [3 + 2 * ps.length]⟩)) ∧
    (∀ n : Nat, (refsFrom 3 n).length = n) := by
  refine ⟨fun ss => ?_, fun ps badKey => ?_, fun n => refsFrom_length 3 n⟩
  · rw [ConvertToCFTypeA, convertArrayItemsA_strs_bad ss 0 init]
    simp [init]
  · rw [ConvertToCFTypeA,
      convertMapEntriesA_strs_bad ps badKey [] init (by simp [init])]
    simp [init]

/-- C6 counterexample: setting a boolean preference releases the
`kCFBooleanTrue` singleton: `Set` defers `Release` on the converted
value, `Release` checks only for the NULL reference, and so `CFRelease`
is invoked on the boolean singleton on this path. -/
theorem set_releases_boolean_singleton :
    kCFBooleanTrueRef ∈
      (SetA "TestKey" (.boolean true) "com.example.app"
        ⟨MacPrefs.CurrentUser, MacPrefs.CurrentHost⟩ init).2.released := by
  decide

/-- C6 amended: `Release` is a no-op on the NULL reference, but it does
not recognize the boolean singletons by identity: on every non-NULL
reference, the singletons included, it invokes `CFRelease`.  Encoding a
boolean itself allocates nothing and returns one of the two process-wide
singletons, yet the `Set` path afterwards releases that singleton
through its deferred `Release` of the converted value. -/
theorem release_no_identity_check :
    (∀ s : AllocState, Release NilCFType s = s) ∧
    (∀ (r : Nat) (s : AllocState), r ≠ NilCFType → Release r s = CFRelease r s) ∧
    (∀ (b : Bool) (s : AllocState),
        ConvertToCFTypeA (.boolean b) s =
          (.ok (if b then kCFBooleanTrueRef else kCFBooleanFalseRef), s)) ∧
    ((SetA "k" (.boolean true) "app"
        ⟨MacPrefs.CurrentUser, MacPrefs.CurrentHost⟩ init).2.released =
      [4, kCFBooleanTrueRef, 3]) := by
  refine ⟨fun s => ?_, fun r s hr => ?_, fun b s => rfl, by decide⟩
  · simp [Release, NilCFType]
  · simp [Release, hr]

/-- C6 witness: `Release` on the `kCFBooleanTrue` singleton invokes
`CFRelease` on it. -/
theorem release_no_identity_check_witness :
    Release kCFBooleanTrueRef init = CFRelease kCFBooleanTrueRef init :=
  release_no_identity_check.2.1 kCFBooleanTrueRef init (by decide)

end Alloc

end MacPrefs
